import Mathlib

/-!
Verification of the three congestion-control sender engines
(stop-and-wait, fixed sliding window, TCP-Reno-style) of the
`2024_congestion_control_ecs152a` repository, via a shallow embedding
of the Python sources `sender_stop_and_wait.py`,
`sender_fixed_sliding_window_*.py` and `tcp_reno.py`.

Bytes are modelled as natural numbers below 256, packets as lists of
bytes, sequence ids as integers (Python ints restricted by the 4-byte
signed wire encoding), and the floating-point congestion variables
`cwnd` / `ssthresh` as rationals (every operation the code performs on
them is exact rational arithmetic: `+1`, `+1/cwnd`, `/2`, `max`, `+3`).
Network interaction is modelled by explicit event traces: each `recvfrom`
call consumes one event, which is either an arriving acknowledgment
datagram or a socket timeout.
-/

/-! ### Shared constants (identical in all three scripts) -/

def PACKET_SIZE : ℕ := 1024

def SEQ_ID_SIZE : ℕ := 4

def MESSAGE_SIZE : ℕ := PACKET_SIZE - SEQ_ID_SIZE

def MAX_RETRIES : ℕ := 50

def WINDOW_SIZE : ℕ := 100

/-! ### Packet codec

`create_packet` embeds `int.to_bytes(seq_id, 4, signed=True, byteorder='big')
+ data`: the two's-complement representative `seq_id % 2^32` written as four
big-endian base-256 digits, followed by the payload.  `parse_ack` embeds the
Python function of the same name: if the datagram has at least 4 bytes, read
the leading 4 as a signed big-endian integer, otherwise return the sentinel
`-1`. -/

def toBytesSigned (seq_id : ℤ) : List ℕ :=
  let n : ℕ := (seq_id % 4294967296).toNat
  [n / 16777216 % 256, n / 65536 % 256, n / 256 % 256, n % 256]

def create_packet (seq_id : ℤ) (data : List ℕ) : List ℕ :=
  toBytesSigned seq_id ++ data

def fromBytesSigned4 (b0 b1 b2 b3 : ℕ) : ℤ :=
  let n : ℕ := ((b0 * 256 + b1) * 256 + b2) * 256 + b3
  if n < 2147483648 then (n : ℤ) else (n : ℤ) - 4294967296

def parse_ack (pkt : List ℕ) : ℤ :=
  match pkt with
  | b0 :: b1 :: b2 :: b3 :: _ => fromBytesSigned4 b0 b1 b2 b3
  | _ => -1

theorem toBytesSigned_recombine (seq_id : ℤ) :
    fromBytesSigned4 ((seq_id % 4294967296).toNat / 16777216 % 256)
      ((seq_id % 4294967296).toNat / 65536 % 256)
      ((seq_id % 4294967296).toNat / 256 % 256)
      ((seq_id % 4294967296).toNat % 256)
      = if (seq_id % 4294967296).toNat < 2147483648
        then ((seq_id % 4294967296).toNat : ℤ)
        else ((seq_id % 4294967296).toNat : ℤ) - 4294967296 := by
  have hlt : (seq_id % 4294967296).toNat < 4294967296 := by omega
  unfold fromBytesSigned4
  set n := (seq_id % 4294967296).toNat with hn
  have hdig : ((n / 16777216 % 256 * 256 + n / 65536 % 256) * 256 + n / 256 % 256) * 256
      + n % 256 = n := by omega
  simp only [hdig]

/-- **C9.** Codec round-trip: for every sequence id in the signed 32-bit range
and every payload of at most `MESSAGE_SIZE = 1020` bytes, decoding the
encoding recovers the pair: the leading 4 bytes parse back to the id, and
the remaining bytes are exactly the payload. -/
theorem codec_round_trip (seq_id : ℤ) (data : List ℕ)
    (hlo : -2147483648 ≤ seq_id) (hhi : seq_id < 2147483648)
    (_hlen : data.length ≤ MESSAGE_SIZE) :
    parse_ack (create_packet seq_id data) = seq_id ∧
      (create_packet seq_id data).drop SEQ_ID_SIZE = data := by
  constructor
  · show parse_ack (toBytesSigned seq_id ++ data) = seq_id
    have hstep : parse_ack (toBytesSigned seq_id ++ data)
        = fromBytesSigned4 ((seq_id % 4294967296).toNat / 16777216 % 256)
          ((seq_id % 4294967296).toNat / 65536 % 256)
          ((seq_id % 4294967296).toNat / 256 % 256)
          ((seq_id % 4294967296).toNat % 256) := by
      simp [toBytesSigned, parse_ack]
    rw [hstep, toBytesSigned_recombine]
    split
    · rename_i hcase
      rcases le_or_lt 0 seq_id with hpos | hneg
      · have : seq_id % 4294967296 = seq_id := Int.emod_eq_of_lt hpos (by omega)
        omega
      · have : seq_id % 4294967296 = seq_id + 4294967296 := by omega
        omega
    · rename_i hcase
      rcases le_or_lt 0 seq_id with hpos | hneg
      · have : seq_id % 4294967296 = seq_id := Int.emod_eq_of_lt hpos (by omega)
        omega
      · have : seq_id % 4294967296 = seq_id + 4294967296 := by omega
        omega
  · show (toBytesSigned seq_id ++ data).drop SEQ_ID_SIZE = data
    simp [toBytesSigned, SEQ_ID_SIZE]

/-- Closed witness for the codec round-trip at a concrete negative id and a
concrete payload. -/
theorem codec_round_trip_witness :
    parse_ack (create_packet (-5) [1, 2, 3]) = -5 ∧
      (create_packet (-5) [1, 2, 3]).drop SEQ_ID_SIZE = [1, 2, 3] :=
  codec_round_trip (-5) [1, 2, 3] (by decide) (by decide) (by decide)

/-! ### TCP-Reno congestion state (`tcp_reno.py`, class `TCPRenoSender`)

The congestion-relevant fields of a `TCPRenoSender` instance: `cwnd`,
`ssthresh` (Python floats, modelled as exact rationals — every operation
performed on them is rational), the phase string `state`, the cumulative
acknowledgment tracker `last_ack` and the duplicate counter
`dup_ack_count`.  Per-packet timing, the socket and the statistics
counters are omitted; the set of tracked outstanding packets is carried
separately as the list of their sequence ids where retransmission
decisions need it. -/

inductive RenoPhase where
  | slowStart
  | congestionAvoidance
  | fastRecovery
deriving DecidableEq, Repr

structure RenoState where
  cwnd : ℚ
  ssthresh : ℚ
  state : RenoPhase
  last_ack : ℤ
  dup_ack_count : ℕ
deriving DecidableEq, Repr

def INITIAL_CWND : ℚ := 1

def INITIAL_SSTHRESH : ℚ := 64

/-- The congestion fields set by `TCPRenoSender.__init__`. -/
def initialRenoState : RenoState :=
  { cwnd := INITIAL_CWND, ssthresh := INITIAL_SSTHRESH,
    state := .slowStart, last_ack := 0, dup_ack_count := 0 }

/-- `TCPRenoSender.on_new_ack` (lines 74-88). -/
def on_new_ack (s : RenoState) : RenoState :=
  match s.state with
  | .slowStart =>
      let c := s.cwnd + 1
      if s.ssthresh ≤ c then
        { s with cwnd := c, state := .congestionAvoidance }
      else
        { s with cwnd := c }
  | .congestionAvoidance => { s with cwnd := s.cwnd + 1 / s.cwnd }
  | .fastRecovery => { s with cwnd := s.ssthresh, state := .congestionAvoidance }

/-- `TCPRenoSender.on_timeout` (lines 90-96). -/
def on_timeout (s : RenoState) : RenoState :=
  { s with ssthresh := max (s.cwnd / 2) 2, cwnd := INITIAL_CWND,
           state := .slowStart, dup_ack_count := 0 }

/-- The congestion-variable updates of `TCPRenoSender.on_triple_dup_ack`
(lines 98-114); the retransmission it performs is reported by the caller
`receive_ack_step`. -/
def on_triple_dup_ack (s : RenoState) : RenoState :=
  let t := max (s.cwnd / 2) 2
  { s with ssthresh := t, cwnd := t + 3, state := .fastRecovery }

/-- Processing of one received acknowledgment id by
`TCPRenoSender.receive_acks` (lines 162-197): the duplicate branch with its
triple-duplicate fast retransmit and fast-recovery window inflation, and the
new-cumulative-ack branch.  `tracked` is the list of sequence ids currently
in `self.packets`.  Returns the new state, the updated tracked list (the
new-ack branch evicts every acknowledged id) and the list of sequence ids
retransmitted while processing this acknowledgment. -/
def receive_ack_step (s : RenoState) (tracked : List ℤ) (ack_id : ℤ) :
    RenoState × List ℤ × List ℤ :=
  if ack_id = s.last_ack then
    let s1 := { s with dup_ack_count := s.dup_ack_count + 1 }
    if s1.dup_ack_count = 3 then
      (on_triple_dup_ack s1, tracked, if ack_id ∈ tracked then [ack_id] else [])
    else if s1.state = .fastRecovery then
      ({ s1 with cwnd := s1.cwnd + 1 }, tracked, [])
    else
      (s1, tracked, [])
  else if s.last_ack < ack_id then
    ({ on_new_ack s with last_ack := ack_id, dup_ack_count := 0 },
     tracked.filter (fun seq => ¬ seq < ack_id), [])
  else
    (s, tracked, [])

/-- Fold `receive_ack_step` over a list of incoming acknowledgment ids,
accumulating the retransmitted sequence ids. -/
def receive_acks_run (s : RenoState) (tracked : List ℤ) :
    List ℤ → RenoState × List ℤ × List ℤ
  | [] => (s, tracked, [])
  | id :: rest =>
      let step := receive_ack_step s tracked id
      let tail := receive_acks_run step.1 step.2.1 rest
      (tail.1, tail.2.1, step.2.2 ++ tail.2.2)

/-- One observable event of the Reno engine: an incoming acknowledgment
datagram, or a receive timeout on which `receive_acks` found at least one
expired outstanding packet and ran the timeout penalty `on_timeout`
(lines 199-214; a timeout with no expired packet changes no congestion
state and is therefore also covered by the acknowledgment-only traces). -/
inductive RenoEvent where
  | ack (id : ℤ)
  | timeout
deriving DecidableEq, Repr

def renoEventStep (st : RenoState × List ℤ) (e : RenoEvent) : RenoState × List ℤ :=
  match e with
  | .ack id =>
      let r := receive_ack_step st.1 st.2 id
      (r.1, r.2.1)
  | .timeout => (on_timeout st.1, st.2)

/-- Run the Reno acknowledgment-processing activity over a trace of events. -/
def renoRun (st : RenoState × List ℤ) (events : List RenoEvent) : RenoState × List ℤ :=
  events.foldl renoEventStep st

/-- The congestion-window bounds invariant. -/
def RenoInv (s : RenoState) : Prop :=
  1 ≤ s.cwnd ∧ 2 ≤ s.ssthresh

theorem renoInv_on_new_ack {s : RenoState} (h : RenoInv s) : RenoInv (on_new_ack s) := by
  obtain ⟨h1, h2⟩ := h
  unfold on_new_ack RenoInv
  cases s.state
  · dsimp only
    split
    · exact ⟨by show (1 : ℚ) ≤ s.cwnd + 1; linarith, h2⟩
    · exact ⟨by show (1 : ℚ) ≤ s.cwnd + 1; linarith, h2⟩
  · refine ⟨?_, h2⟩
    have hpos : 0 < s.cwnd := by linarith
    have : 0 < 1 / s.cwnd := by positivity
    dsimp only
    linarith
  · exact ⟨by linarith, h2⟩

theorem renoInv_on_timeout (s : RenoState) : RenoInv (on_timeout s) := by
  unfold on_timeout RenoInv
  refine ⟨by norm_num [INITIAL_CWND], ?_⟩
  exact le_max_right _ _

theorem renoInv_on_triple_dup_ack (s : RenoState) :
    RenoInv (on_triple_dup_ack s) := by
  unfold on_triple_dup_ack RenoInv
  have : (2 : ℚ) ≤ max (s.cwnd / 2) 2 := le_max_right _ _
  exact ⟨by dsimp only; linarith, by dsimp only; linarith⟩

theorem renoInv_receive_ack_step {s : RenoState} (tracked : List ℤ) (ack_id : ℤ)
    (h : RenoInv s) : RenoInv (receive_ack_step s tracked ack_id).1 := by
  obtain ⟨h1, h2⟩ := h
  unfold receive_ack_step
  split
  · dsimp only
    split
    · exact renoInv_on_triple_dup_ack _
    · split
      · exact ⟨by dsimp only; linarith, h2⟩
      · exact ⟨h1, h2⟩
  · split
    · exact renoInv_on_new_ack ⟨h1, h2⟩
    · exact ⟨h1, h2⟩

theorem renoInv_step {st : RenoState × List ℤ} (e : RenoEvent)
    (h : RenoInv st.1) : RenoInv (renoEventStep st e).1 := by
  cases e
  · exact renoInv_receive_ack_step _ _ h
  · exact renoInv_on_timeout _

theorem renoInv_run (events : List RenoEvent) :
    ∀ st : RenoState × List ℤ, RenoInv st.1 → RenoInv (renoRun st events).1 := by
  induction events with
  | nil => intro st h; exact h
  | cons e rest ih =>
      intro st h
      exact ih (renoEventStep st e) (renoInv_step e h)

/-- **C3.** Congestion-window bounds: starting from the initial congestion
state, after any sequence of acknowledgment (new, duplicate, triple-duplicate)
and timeout events — i.e. at every observation point of the Reno engine —
`cwnd ≥ 1` and `ssthresh ≥ 2` hold. -/
theorem reno_cwnd_ssthresh_bounds (events : List RenoEvent) (tracked : List ℤ) :
    1 ≤ (renoRun (initialRenoState, tracked) events).1.cwnd ∧
      2 ≤ (renoRun (initialRenoState, tracked) events).1.ssthresh :=
  renoInv_run events (initialRenoState, tracked)
    ⟨by norm_num [initialRenoState, INITIAL_CWND],
     by norm_num [initialRenoState, INITIAL_SSTHRESH]⟩

/-- **C4.** Fast-retransmit trigger: starting from any congestion state with
`dup_ack_count = 0` that is not already in fast recovery, three consecutive
receipts of the current cumulative acknowledgment id leave the state
untouched for the first two (only the duplicate counter advances, no
retransmission, no phase change), and on exactly the third perform one
retransmission of the tracked packet at that id (none if it is no longer
tracked), set `ssthresh = max(cwnd/2, 2)`, `cwnd = ssthresh + 3` and
transition once to `fastRecovery`; a fourth identical acknowledgment then
inflates `cwnd` by exactly 1 and retransmits nothing further. -/
theorem reno_fast_retransmit (s : RenoState) (tracked : List ℤ)
    (h0 : s.dup_ack_count = 0) (h1 : s.state ≠ RenoPhase.fastRecovery) :
    receive_acks_run s tracked [s.last_ack, s.last_ack]
      = ({ s with dup_ack_count := 2 }, tracked, []) ∧
    receive_acks_run s tracked [s.last_ack, s.last_ack, s.last_ack]
      = ({ s with ssthresh := max (s.cwnd / 2) 2,
                  cwnd := max (s.cwnd / 2) 2 + 3,
                  state := RenoPhase.fastRecovery, dup_ack_count := 3 },
         tracked,
         if s.last_ack ∈ tracked then [s.last_ack] else []) ∧
    receive_acks_run s tracked [s.last_ack, s.last_ack, s.last_ack, s.last_ack]
      = ({ s with ssthresh := max (s.cwnd / 2) 2,
                  cwnd := max (s.cwnd / 2) 2 + 3 + 1,
                  state := RenoPhase.fastRecovery, dup_ack_count := 4 },
         tracked,
         if s.last_ack ∈ tracked then [s.last_ack] else []) := by
  obtain ⟨c, ss, ph, la, dc⟩ := s
  simp only at h0 h1
  subst h0
  refine ⟨?_, ?_, ?_⟩ <;>
    simp [receive_acks_run, receive_ack_step, on_triple_dup_ack, h1]

/-- Closed witness for the fast-retransmit theorem: from a concrete tracked
state, three duplicates of acknowledgment id 5 produce exactly the single
retransmission of packet 5. -/
theorem reno_fast_retransmit_witness :
    (receive_acks_run
        { cwnd := 10, ssthresh := 64, state := RenoPhase.slowStart,
          last_ack := 5, dup_ack_count := 0 } [5] [5, 5, 5]).2.2 = [5] := by
  have h := reno_fast_retransmit
    { cwnd := 10, ssthresh := 64, state := RenoPhase.slowStart,
      last_ack := 5, dup_ack_count := 0 } [5] rfl (by decide)
  rw [h.2.1]
  decide

/-- Iterated loss-free new-acknowledgment handling, starting from the
initial congestion state `cwnd = 1`, `ssthresh = 64`, slow start. -/
def slowStartIter (k : ℕ) : RenoState := on_new_ack^[k] initialRenoState

theorem slowStartIter_eq (k : ℕ) (hk : k ≤ 62) :
    slowStartIter k
      = { cwnd := 1 + (k : ℚ), ssthresh := 64, state := RenoPhase.slowStart,
          last_ack := 0, dup_ack_count := 0 } := by
  induction k with
  | zero =>
      simp [slowStartIter, initialRenoState, INITIAL_CWND, INITIAL_SSTHRESH]
  | succ n ih =>
      have hn : n ≤ 62 := Nat.le_of_succ_le hk
      have hn61 : n ≤ 61 := by omega
      have step : slowStartIter (n + 1) = on_new_ack (slowStartIter n) := by
        rw [slowStartIter, slowStartIter, Function.iterate_succ_apply']
      rw [step, ih hn]
      unfold on_new_ack
      dsimp only
      rw [if_neg]
      · congr 1
        push_cast
        ring
      · have : (n : ℚ) ≤ 61 := by exact_mod_cast hn61
        intro hcon
        linarith

/-- **C7.** Slow-start to congestion-avoidance transition: from
`cwnd = 1`, `ssthresh = 64` in slow start, under consecutive loss-free
new-acknowledgment events `cwnd` reaches 64 (hence at least 64) after
exactly 63 acknowledgments and the phase becomes congestion avoidance at
exactly that acknowledgment; for every earlier point the phase is still
slow start and `cwnd < 64`. -/
theorem slow_start_transition :
    (64 : ℚ) ≤ (slowStartIter 63).cwnd ∧
    (slowStartIter 63).state = RenoPhase.congestionAvoidance ∧
    ∀ k, k < 63 →
      (slowStartIter k).state = RenoPhase.slowStart ∧ (slowStartIter k).cwnd < 64 := by
  have h62 := slowStartIter_eq 62 (by norm_num)
  have h63 : slowStartIter 63 = on_new_ack (slowStartIter 62) := by
    rw [slowStartIter, slowStartIter, Function.iterate_succ_apply']
  rw [h62] at h63
  have hval : on_new_ack
      { cwnd := 1 + ((62 : ℕ) : ℚ), ssthresh := 64, state := RenoPhase.slowStart,
        last_ack := 0, dup_ack_count := 0 }
      = { cwnd := 64, ssthresh := 64, state := RenoPhase.congestionAvoidance,
          last_ack := 0, dup_ack_count := 0 } := by
    unfold on_new_ack
    dsimp only
    rw [if_pos]
    · congr 1
      norm_num
    · norm_num
  rw [hval] at h63
  refine ⟨by rw [h63], by rw [h63], ?_⟩
  intro k hk
  have hk62 : k ≤ 62 := by omega
  rw [slowStartIter_eq k hk62]
  refine ⟨rfl, ?_⟩
  have : (k : ℚ) ≤ 62 := by exact_mod_cast hk62
  show 1 + (k : ℚ) < 64
  linarith

/-- Closed witness for the slow-start transition theorem: at the 62nd
acknowledgment the phase is still slow start and `cwnd` is below 64. -/
theorem slow_start_transition_witness :
    (slowStartIter 62).state = RenoPhase.slowStart ∧ (slowStartIter 62).cwnd < 64 :=
  slow_start_transition.2.2 62 (by norm_num)

/-! ### Stop-and-wait engine (`sender_stop_and_wait.py`, `send_file_stop_and_wait`)

The per-chunk inner loop (lines 78-114) sends the packet at the top of
every iteration and then blocks on one `recvfrom`; each `recvfrom` outcome
is one `NetEvent`.  A matching acknowledgment ends the loop successfully, a
mismatching one is merely logged (so the next iteration sends the same
packet again), a timeout increments the retry counter.  The loop also ends,
reporting failure, once the retry counter reaches `MAX_RETRIES = 50`. -/

inductive NetEvent where
  | ack (id : ℤ)
  | timeout
deriving DecidableEq, Repr

structure SWInnerOut where
  ack_received : Option Bool
  retries : ℕ
  sends : ℕ
  rest : List NetEvent
deriving DecidableEq, Repr

/-- The inner retry loop for one chunk: `expected = seq_id + len(chunk)`;
`ack_received = some true` means the matching acknowledgment arrived,
`some false` that the retry budget was exhausted, and `none` that the
event trace ran out while the loop was still blocked on `recvfrom`. -/
def swInner (expected : ℤ) : ℕ → ℕ → List NetEvent → SWInnerOut
  | retries, sends, [] =>
      if MAX_RETRIES ≤ retries then ⟨some false, retries, sends, []⟩
      else ⟨none, retries, sends + 1, []⟩
  | retries, sends, e :: rest =>
      if MAX_RETRIES ≤ retries then ⟨some false, retries, sends, e :: rest⟩
      else
        match e with
        | .ack id =>
            if id = expected then ⟨some true, retries, sends + 1, rest⟩
            else swInner expected retries (sends + 1) rest
        | .timeout => swInner expected (retries + 1) (sends + 1) rest

inductive SWOutcome where
  | success (acked_ends : List ℤ)
  | failure
  | starved
deriving DecidableEq, Repr

/-- The outer chunk loop of `send_file_stop_and_wait` (lines 68-121): on a
matching acknowledgment advance `seq_id` by the chunk length and move to the
next chunk; on retry exhaustion return the failure result (`None` metrics).
A successful run collects the list of matched acknowledgment ids, one per
chunk (each equal to that chunk's end offset). -/
def swRun : List (List ℕ) → ℤ → List NetEvent → SWOutcome
  | [], _, _ => .success []
  | chunk :: rest, seq_id, events =>
      let r := swInner (seq_id + (chunk.length : ℤ)) 0 0 events
      match r.ack_received with
      | some true =>
          match swRun rest (seq_id + (chunk.length : ℤ)) r.rest with
          | .success ends => .success ((seq_id + (chunk.length : ℤ)) :: ends)
          | o => o
      | some false => .failure
      | none => .starved

/-- End offsets of the chunks of a stream, starting at byte offset `base`:
the acknowledgment ids that cover each chunk. -/
def chunkBoundaries : List (List ℕ) → ℤ → List ℤ
  | [], _ => []
  | chunk :: rest, base =>
      (base + (chunk.length : ℤ)) :: chunkBoundaries rest (base + (chunk.length : ℤ))

theorem swRun_success_boundaries :
    ∀ (chunks : List (List ℕ)) (seq_id : ℤ) (events : List NetEvent) (ends : List ℤ),
      swRun chunks seq_id events = SWOutcome.success ends →
        ends = chunkBoundaries chunks seq_id := by
  intro chunks
  induction chunks with
  | nil =>
      intro seq evs ends h
      simp only [swRun] at h
      cases h
      rfl
  | cons c rest ih =>
      intro seq evs ends h
      simp only [swRun] at h
      split at h
      · split at h
        · cases h
          rename_i ends' hrec
          rw [chunkBoundaries, ih _ _ _ hrec]
        · simp_all
      · cases h
      · cases h

/-! ### Fixed sliding-window engine
(`sender_fixed_sliding_window_*.py`, `send_file_fixed_window`)

The transfer pre-builds one record per chunk (seq id = byte offset, size,
acked flag; lines 54-69) and then loops: send every unsent unacknowledged
packet inside the window (no event consumed), wait for one `recvfrom`
outcome per iteration.  An arriving acknowledgment marks every packet from
`window_start` on with `seq_id < ack_id` as acknowledged, advances
`window_start` past the acknowledged prefix, and — only if at least one
packet was newly acknowledged — breaks back to the outer loop, which
resets the retry counter to zero; a timeout increments the retry counter
and retransmits the unacknowledged window (send counts are not modelled).
Fifty timeouts without an intervening window advance abort the transfer
(lines 104-151). -/

structure FWPacket where
  seq_id : ℤ
  size : ℕ
  acked : Bool
deriving DecidableEq, Repr

/-- The chunk records built by lines 54-69, starting at byte offset `base`. -/
def mkFWPackets : List (List ℕ) → ℤ → List FWPacket
  | [], _ => []
  | chunk :: rest, base =>
      { seq_id := base, size := chunk.length, acked := false }
        :: mkFWPackets rest (base + (chunk.length : ℤ))

/-- The acknowledgment-marking pass (lines 113-122) over the packets from
index `window_start` on: mark every not-yet-acknowledged packet with
`seq_id < ack_id`; also return how many packets were newly acknowledged. -/
def markFrom (ack_id : ℤ) : List FWPacket → List FWPacket × ℕ
  | [] => ([], 0)
  | p :: rest =>
      let r := markFrom ack_id rest
      if p.seq_id < ack_id ∧ p.acked = false then
        ({ p with acked := true } :: r.1, r.2 + 1)
      else
        (p :: r.1, r.2)

/-- The window-advance loop (lines 124-125): the length of the acknowledged
prefix starting at `window_start`. -/
def ackedPrefixLen : List FWPacket → ℕ
  | [] => 0
  | p :: rest => if p.acked then ackedPrefixLen rest + 1 else 0

inductive FWOutcome where
  | success (final : List FWPacket)
  | failure
  | starved
deriving DecidableEq, Repr

/-- The transfer loop of `send_file_fixed_window` (lines 78-151), flattened
over one event trace: the outer loop ends successfully once `window_start`
passes the last packet; the retry check `retry_count >= MAX_RETRIES` aborts
with the failure result; each consumed event is one `recvfrom` outcome of
the inner wait loop.  A progressing acknowledgment re-enters the outer
loop, whose next iteration resets `retry_count = 0`. -/
def fwLoop : List FWPacket → ℕ → ℕ → List NetEvent → FWOutcome
  | pkts, window_start, retry_count, events =>
      if pkts.length ≤ window_start then .success pkts
      else if MAX_RETRIES ≤ retry_count then .failure
      else
        match events with
        | [] => .starved
        | NetEvent.timeout :: rest => fwLoop pkts window_start (retry_count + 1) rest
        | NetEvent.ack id :: rest =>
            let m := markFrom id (pkts.drop window_start)
            let pkts2 := pkts.take window_start ++ m.1
            let ws2 := window_start + ackedPrefixLen m.1
            if 0 < m.2 then fwLoop pkts2 ws2 0 rest
            else fwLoop pkts2 ws2 retry_count rest

theorem markFrom_length (ack_id : ℤ) :
    ∀ l : List FWPacket, (markFrom ack_id l).1.length = l.length := by
  intro l
  induction l with
  | nil => rfl
  | cons p rest ih =>
      simp only [markFrom]
      split <;> simp [ih]

theorem ackedPrefixLen_all :
    ∀ l : List FWPacket, (l.take (ackedPrefixLen l)).all (fun p => p.acked) = true := by
  intro l
  induction l with
  | nil => rfl
  | cons p rest ih =>
      simp only [ackedPrefixLen]
      split
      · rename_i hp
        simp [List.take, hp, ih]
      · simp

theorem fwLoop_success_all_acked :
    ∀ (events : List NetEvent) (pkts : List FWPacket) (ws r : ℕ)
      (final : List FWPacket),
      (pkts.take ws).all (fun p => p.acked) = true →
      fwLoop pkts ws r events = FWOutcome.success final →
      final.all (fun p => p.acked) = true := by
  intro events
  induction events with
  | nil =>
      intro pkts ws r final hinv h
      unfold fwLoop at h
      split at h
      · rename_i hlen
        cases h
        rwa [List.take_of_length_le hlen] at hinv
      · split at h <;> cases h
  | cons e rest ih =>
      intro pkts ws r final hinv h
      unfold fwLoop at h
      split at h
      · rename_i hlen
        cases h
        rwa [List.take_of_length_le hlen] at hinv
      · rename_i hlen
        split at h
        · cases h
        · have hws : ws ≤ pkts.length := by omega
          cases e with
          | timeout =>
              exact ih pkts ws (r + 1) final hinv h
          | ack id =>
              simp only at h
              have hlen_take : (pkts.take ws).length = ws := by
                simp [List.length_take, Nat.min_eq_left hws]
              have hinv2 :
                  ((pkts.take ws ++ (markFrom id (pkts.drop ws)).1).take
                      (ws + ackedPrefixLen (markFrom id (pkts.drop ws)).1)).all
                    (fun p => p.acked) = true := by
                rw [List.take_append_eq_append_take, hlen_take]
                rw [List.take_of_length_le (by omega : (pkts.take ws).length ≤ ws + ackedPrefixLen (markFrom id (pkts.drop ws)).1)]
                rw [Nat.add_sub_cancel_left]
                rw [List.all_append]
                rw [hinv, ackedPrefixLen_all]
                rfl
              split at h
              · exact ih _ _ 0 final hinv2 h
              · exact ih _ _ r final hinv2 h

theorem fwLoop_all_timeouts :
    ∀ (n : ℕ) (pkts : List FWPacket) (ws r : ℕ) (events : List NetEvent),
      ws < pkts.length → MAX_RETRIES ≤ r + n →
      fwLoop pkts ws r (List.replicate n NetEvent.timeout ++ events)
        = FWOutcome.failure := by
  intro n
  induction n with
  | zero =>
      intro pkts ws r evs hw hr
      simp only [List.replicate, List.nil_append]
      unfold fwLoop
      rw [if_neg (by omega), if_pos (by omega)]
  | succ m ih =>
      intro pkts ws r evs hw hr
      rw [List.replicate_succ, List.cons_append]
      unfold fwLoop
      rw [if_neg (by omega)]
      by_cases hc : MAX_RETRIES ≤ r
      · rw [if_pos hc]
      · rw [if_neg hc]
        exact ih pkts ws (r + 1) evs hw (by omega)

theorem swInner_all_timeouts (expected : ℤ) :
    ∀ (n retries sends : ℕ), MAX_RETRIES ≤ retries + n →
      (swInner expected retries sends (List.replicate n NetEvent.timeout)).ack_received
        = some false := by
  intro n
  induction n with
  | zero =>
      intro r s h
      simp only [List.replicate]
      unfold swInner
      rw [if_pos (by omega)]
  | succ m ih =>
      intro r s h
      rw [List.replicate_succ]
      unfold swInner
      by_cases hc : MAX_RETRIES ≤ r
      · rw [if_pos hc]
      · rw [if_neg hc]
        exact ih (r + 1) (s + 1) (by omega)

/-! ### Reno sender activity and finalization (`tcp_reno.py`, lines 116-149
and 218-285) -/

/-- Python `int()` truncation of a rational (used by
`get_window_size_bytes`, line 65: `int(self.cwnd * MESSAGE_SIZE)`).  For
the nonnegative window sizes the engine produces, truncation toward zero
and integer division of numerator by denominator coincide. -/
def int_trunc (q : ℚ) : ℤ := q.num / (q.den : ℤ)

structure RenoSendState where
  next_seq : ℕ
  window_base : ℕ
  cwnd : ℚ
deriving DecidableEq, Repr

/-- One iteration of the `TCPRenoSender.send_packets` loop (lines 120-147)
under a transport that never delivers an acknowledgment: the receiver
activity then never advances `window_base`, and the only congestion update
it can perform is the timeout penalty, which resets `cwnd` to 1.  `none`
models the loop condition `next_seq < total_bytes` failing (loop exit);
the window-full branch (`bytes_in_flight >= window_size_bytes`) sleeps
briefly and leaves the state unchanged; otherwise the next chunk is sent
and `next_seq` advances by its length. -/
def renoSendStep (total_bytes : ℕ) (s : RenoSendState) : Option RenoSendState :=
  if total_bytes ≤ s.next_seq then none
  else if int_trunc (s.cwnd * (MESSAGE_SIZE : ℚ)) ≤ (s.next_seq : ℤ) - (s.window_base : ℤ) then
    some s
  else
    some { s with next_seq := s.next_seq + min MESSAGE_SIZE (total_bytes - s.next_seq) }

/-- The final wait loop of `TCPRenoSender.send_file` (lines 237-243): poll
`window_base` until it reaches `total_bytes`, sleeping 0.1 s per
iteration, but give up once the 30-second cap `max_wait` expires.  The
argument list is the finite sequence of `window_base` snapshots the
receiver activity produces before the cap (at most 300); when it is
exhausted the loop breaks with the current value even if it is still
below `total_bytes`. -/
def renoFinalWait (total_bytes : ℕ) : ℕ → List ℕ → ℕ
  | wb, [] => wb
  | wb, w :: rest => if total_bytes ≤ wb then wb else renoFinalWait total_bytes w rest

/-- After the wait loop, `send_file` unconditionally proceeds to the
termination handshake and computes and returns
`(throughput, avg_delay, metric)` with `throughput = total_bytes /
total_time` (lines 245-285); `main` (lines 300-310) prints these three
values as the success result exactly when `throughput > 0`, which holds
whenever the file is nonempty since the elapsed time is positive.
Whether a Reno run reports success therefore depends only on the file
size, never on how much of the stream was actually acknowledged. -/
def renoReportsSuccess (total_bytes : ℕ) : Bool := 0 < total_bytes

/-- **C2** counterexample: the Reno engine does not abort — it hangs.  With
a 2040-byte file and no acknowledgment ever arriving, the sender activity
reaches `next_seq = 1020`, `window_base = 0`, `cwnd = 1` (one full window
in flight), and one further iteration of `send_packets` returns the very
same state without exiting: the loop has reached a fixpoint short of the
stream end and never terminates, and no retry budget exists anywhere in
`tcp_reno.py` to break it. -/
theorem reno_never_acked_stalls :
    renoSendStep 2040 ⟨1020, 0, 1⟩ = some ⟨1020, 0, 1⟩ ∧ (1020 : ℕ) < 2040 := by
  constructor
  · unfold renoSendStep int_trunc
    norm_num [MESSAGE_SIZE, PACKET_SIZE, SEQ_ID_SIZE]
  · norm_num

/-- **C2** (amended).  Against a transport that never acknowledges, the
Stop-and-Wait and Fixed Window engines terminate: each aborts once its
50-timeout retry budget is exhausted and returns the failure result
(surfaced by `main` as zero metrics).  The Congestion-Controlled engine
has no retry budget and does not abort (see the counterexample theorem:
its sender loop reaches a fixpoint and hangs). -/
theorem retry_budget_abort (chunk : List ℕ) (chunks : List (List ℕ)) (seq_id : ℤ)
    (pkts : List FWPacket) (ws : ℕ) (events : List NetEvent)
    (hws : ws < pkts.length) :
    swRun (chunk :: chunks) seq_id (List.replicate MAX_RETRIES NetEvent.timeout)
        = SWOutcome.failure ∧
      fwLoop pkts ws 0 (List.replicate MAX_RETRIES NetEvent.timeout ++ events)
        = FWOutcome.failure := by
  constructor
  · have h := swInner_all_timeouts (seq_id + (chunk.length : ℤ)) MAX_RETRIES 0 0
      (by omega)
    simp only [swRun]
    rw [h]
  · exact fwLoop_all_timeouts MAX_RETRIES pkts ws 0 events hws (by omega)

/-- Closed witness for the retry-budget abort theorem: a one-chunk
stop-and-wait transfer and a one-packet fixed-window transfer, each fed 50
straight timeouts, both return the failure result. -/
theorem retry_budget_abort_witness :
    swRun [[7]] 0 (List.replicate MAX_RETRIES NetEvent.timeout) = SWOutcome.failure ∧
      fwLoop [⟨0, 1, false⟩] 0 0 (List.replicate MAX_RETRIES NetEvent.timeout ++ [])
        = FWOutcome.failure :=
  retry_budget_abort [7] [] 0 [⟨0, 1, false⟩] 0 [] (by decide)

set_option maxRecDepth 4000 in
/-- **C1** counterexample: a Reno run that reports success metrics while no
byte of the stream is acknowledged.  With a 2040-byte file and a transport
that never acknowledges, every snapshot of `window_base` seen by the final
wait loop is 0, the 30-second cap expires (300 polls), the loop exits with
`window_base = 0 < 2040`, and the run nevertheless computes and prints the
success metrics. -/
theorem reno_premature_success :
    renoFinalWait 2040 0 (List.replicate 300 0) = 0 ∧
      renoFinalWait 2040 0 (List.replicate 300 0) < 2040 ∧
      renoReportsSuccess 2040 = true := by
  refine ⟨?_, ?_, rfl⟩ <;> decide

/-- **C1** (amended).  The Stop-and-Wait and Fixed Window engines report
success only after every byte is acknowledged: a successful stop-and-wait
run has received a matching acknowledgment for every chunk boundary (the
collected matches are exactly the chunk end offsets), and a successful
fixed-window run ends with every packet record marked acknowledged.  The
Congestion-Controlled engine does not have this property: its final wait
is capped at 30 seconds, after which it reports success metrics even with
bytes still unacknowledged (see the counterexample theorem). -/
theorem success_requires_full_ack :
    (∀ (chunks : List (List ℕ)) (events : List NetEvent) (ends : List ℤ),
        swRun chunks 0 events = SWOutcome.success ends →
          ends = chunkBoundaries chunks 0) ∧
    (∀ (pkts : List FWPacket) (events : List NetEvent) (final : List FWPacket),
        fwLoop pkts 0 0 events = FWOutcome.success final →
          final.all (fun p => p.acked) = true) := by
  constructor
  · intro chunks evs ends h
    exact swRun_success_boundaries chunks 0 evs ends h
  · intro pkts evs final h
    exact fwLoop_success_all_acked evs pkts 0 0 final (by simp) h

/-- Closed witness for the success-requires-full-acknowledgment theorem:
a successful one-chunk stop-and-wait run collected exactly the chunk
boundary, and a successful one-packet fixed-window run left the packet
acknowledged. -/
theorem success_requires_full_ack_witness :
    ([2] : List ℤ) = chunkBoundaries [[7, 8]] 0 ∧
      (([⟨0, 2, true⟩] : List FWPacket).all (fun p => p.acked) = true) :=
  ⟨success_requires_full_ack.1 [[7, 8]] [NetEvent.ack 2] [2] (by decide),
   success_requires_full_ack.2 [⟨0, 2, false⟩] [NetEvent.ack 2] [⟨0, 2, true⟩]
     (by decide)⟩

/-- **C5** counterexample: a mismatched acknowledgment does cause a resend.
For a first chunk of length 1020 (`expected = 1020`), the trace "one wrong
acknowledgment (id 5), then the right one" drives the inner loop through
two iterations, and since every iteration begins with `sock.sendto`, the
chunk is transmitted twice — although no timeout occurred and the retry
counter is still 0.  Under the claim, a mismatch leaves the engine waiting
without resending, so only 1 send (the initial one) should have happened. -/
theorem sw_mismatch_resend :
    swInner 1020 0 0 [NetEvent.ack 5, NetEvent.ack 1020]
        = ⟨some true, 0, 2, []⟩ ∧
      ¬ (2 : ℕ) = 1 + 0 := by
  constructor
  · decide
  · decide

/-- **C5** (amended).  On a mismatched acknowledgment the stop-and-wait
inner loop changes no transfer state — the expected id (hence the chunk
and offset) and the retry counter are unchanged — but it loops back and
therefore re-sends the same chunk before waiting again; a timeout
increments the retry counter (also re-sending); a matching acknowledgment
ends the chunk's loop successfully. -/
theorem sw_mismatch_behavior (expected wrong : ℤ) (retries sends : ℕ)
    (events : List NetEvent) (hw : wrong ≠ expected)
    (hr : retries < MAX_RETRIES) :
    swInner expected retries sends (NetEvent.ack wrong :: events)
        = swInner expected retries (sends + 1) events ∧
      swInner expected retries sends (NetEvent.timeout :: events)
        = swInner expected (retries + 1) (sends + 1) events ∧
      swInner expected retries sends (NetEvent.ack expected :: events)
        = ⟨some true, retries, sends + 1, events⟩ := by
  have hnle : ¬ MAX_RETRIES ≤ retries := by omega
  refine ⟨?_, ?_, ?_⟩ <;> simp [swInner, hnle, hw]

/-- Closed witness for the mismatch-behavior theorem at a concrete chunk
(`expected = 1020`), wrong id 5, fresh counters, empty tail. -/
theorem sw_mismatch_behavior_witness :
    swInner 1020 0 0 [NetEvent.ack 5] = swInner 1020 0 1 [] ∧
      swInner 1020 0 0 [NetEvent.timeout] = swInner 1020 1 1 [] ∧
      swInner 1020 0 0 [NetEvent.ack 1020] = ⟨some true, 0, 1, []⟩ :=
  sw_mismatch_behavior 1020 5 0 0 [] (by decide) (by decide)

/-- **C6** counterexample: the fixed-window retry budget is not a
whole-transfer total.  A two-packet transfer that suffers 30 timeouts
before the first acknowledgment and another 30 before the second — 60
timeouts in total, exceeding `MAX_RETRIES = 50` — still completes with the
success result, because `retry_count` is reset to 0 when the window
advances (line 105 re-runs on each outer iteration). -/
theorem fw_retry_not_total :
    fwLoop [⟨0, 5, false⟩, ⟨5, 5, false⟩] 0 0
        (List.replicate 30 NetEvent.timeout ++ [NetEvent.ack 5]
          ++ List.replicate 30 NetEvent.timeout ++ [NetEvent.ack 10])
        = FWOutcome.success [⟨0, 5, true⟩, ⟨5, 5, true⟩] ∧
      MAX_RETRIES ≤ (List.replicate 30 NetEvent.timeout ++ [NetEvent.ack 5]
          ++ List.replicate 30 NetEvent.timeout ++ [NetEvent.ack 10]).countP
            (fun e => e = NetEvent.timeout) := by
  constructor
  · decide
  · decide

/-- **C6** (amended).  The fixed-window retry budget is per
acknowledgment-wait round, not shared across the transfer: an
acknowledgment that newly acknowledges at least one packet re-enters the
outer loop with the retry counter reset to 0, while an acknowledgment with
no progress keeps the current counter; the transfer aborts with the
failure result exactly when 50 timeouts accumulate within a single round
(i.e. without an intervening window advance). -/
theorem fw_retry_per_round (pkts : List FWPacket) (ws r : ℕ) (id : ℤ)
    (events : List NetEvent) (hws : ws < pkts.length) (hr : r < MAX_RETRIES) :
    (0 < (markFrom id (pkts.drop ws)).2 →
        fwLoop pkts ws r (NetEvent.ack id :: events)
          = fwLoop (pkts.take ws ++ (markFrom id (pkts.drop ws)).1)
              (ws + ackedPrefixLen (markFrom id (pkts.drop ws)).1) 0 events) ∧
    ((markFrom id (pkts.drop ws)).2 = 0 →
        fwLoop pkts ws r (NetEvent.ack id :: events)
          = fwLoop (pkts.take ws ++ (markFrom id (pkts.drop ws)).1)
              (ws + ackedPrefixLen (markFrom id (pkts.drop ws)).1) r events) ∧
    fwLoop pkts ws MAX_RETRIES events = FWOutcome.failure := by
  refine ⟨?_, ?_, ?_⟩
  · intro hp
    conv_lhs => rw [fwLoop.eq_def]
    dsimp only
    rw [if_neg (by omega), if_neg (by omega), if_pos hp]
  · intro hp
    conv_lhs => rw [fwLoop.eq_def]
    dsimp only
    rw [if_neg (by omega), if_neg (by omega), if_neg (by omega)]
  · conv_lhs => rw [fwLoop.eq_def]
    dsimp only
    rw [if_neg (by omega), if_pos (le_refl MAX_RETRIES)]

/-- Closed witness for the per-round retry theorem: one unacknowledged
packet, a progressing acknowledgment resets the counter, and a full
counter aborts. -/
theorem fw_retry_per_round_witness :
    (0 < (markFrom 1 (([⟨0, 1, false⟩] : List FWPacket).drop 0)).2 →
        fwLoop [⟨0, 1, false⟩] 0 7 [NetEvent.ack 1]
          = fwLoop (([⟨0, 1, false⟩] : List FWPacket).take 0
                ++ (markFrom 1 (([⟨0, 1, false⟩] : List FWPacket).drop 0)).1)
              (0 + ackedPrefixLen (markFrom 1 (([⟨0, 1, false⟩] : List FWPacket).drop 0)).1)
              0 []) ∧
    ((markFrom 1 (([⟨0, 1, false⟩] : List FWPacket).drop 0)).2 = 0 →
        fwLoop [⟨0, 1, false⟩] 0 7 [NetEvent.ack 1]
          = fwLoop (([⟨0, 1, false⟩] : List FWPacket).take 0
                ++ (markFrom 1 (([⟨0, 1, false⟩] : List FWPacket).drop 0)).1)
              (0 + ackedPrefixLen (markFrom 1 (([⟨0, 1, false⟩] : List FWPacket).drop 0)).1)
              7 []) ∧
    fwLoop [⟨0, 1, false⟩] 0 MAX_RETRIES [] = FWOutcome.failure :=
  fw_retry_per_round [⟨0, 1, false⟩] 0 7 1 [] (by decide) (by decide)

/-! ### Termination handshake (stop-and-wait lines 123-139, fixed window
lines 155-170, Reno lines 245-261)

Each engine's close sequence is straight-line code: send the zero-payload
end marker at the final byte offset (once in the stop-and-wait and
fixed-window scripts, five times in a row in the Reno script), try to
receive one acknowledgment and one FIN — the `socket.timeout` branch only
logs — and finally send the `==FINACK==` marker, always at sequence id 0.
Control then always reaches the metric computation, so each model returns
the packets sent together with the constant flag that metrics are computed
and returned. -/

structure Packet where
  seq_id : ℤ
  payload : List ℕ
deriving DecidableEq, Repr

/-- ASCII bytes of the literal `==FINACK==`. -/
def finack_payload : List ℕ := [61, 61, 70, 73, 78, 65, 67, 75, 61, 61]

/-- Termination phase of `send_file_stop_and_wait` (lines 123-139);
`fin_arrived = false` models the `socket.timeout` branch of the wait for
the acknowledgment and FIN replies. -/
def swHandshake (final_seq : ℤ) (_fin_arrived : Bool) : List Packet × Bool :=
  ([{ seq_id := final_seq, payload := [] },
    { seq_id := 0, payload := finack_payload }], true)

/-- Termination phase of `send_file_fixed_window` (lines 155-170). -/
def fwHandshake (final_seq : ℤ) (_fin_arrived : Bool) : List Packet × Bool :=
  ([{ seq_id := final_seq, payload := [] },
    { seq_id := 0, payload := finack_payload }], true)

/-- Termination phase of `TCPRenoSender.send_file` (lines 245-261): the
zero-payload final packet is sent five times in a `for _ in range(5)`
loop, then the FINACK marker once. -/
def renoHandshake (window_base : ℤ) (_fin_arrived : Bool) : List Packet × Bool :=
  (List.replicate 5 { seq_id := window_base, payload := [] }
     ++ [{ seq_id := 0, payload := finack_payload }], true)

/-- **C8** counterexample: the stop-and-wait (and fixed-window) handshake
sends the zero-payload end marker exactly once, not "repeated a few times
(more than once)"; only the Reno script repeats it. -/
theorem handshake_end_marker_once :
    ((swHandshake 2040 false).1.filter (fun p => p.payload.isEmpty)).length = 1 ∧
      ((fwHandshake 2040 false).1.filter (fun p => p.payload.isEmpty)).length = 1 ∧
      ¬ 1 < ((swHandshake 2040 false).1.filter (fun p => p.payload.isEmpty)).length := by
  refine ⟨?_, ?_, ?_⟩ <;> decide

/-- **C8** (amended).  For every engine and every final byte offset, the
termination handshake sends the zero-payload end marker with sequence id
equal to the final byte offset — exactly once in the Stop-and-Wait and
Fixed Window engines, five times in the Congestion-Controlled engine — and
whether or not the wait for the acknowledgment and FIN times out, the
timeout is non-fatal: the code always proceeds to compute and return the
metrics of the data already transferred. -/
theorem handshake_behavior (final_seq : ℤ) (fin_arrived : Bool) :
    ((swHandshake final_seq fin_arrived).1.filter (fun p => p.payload.isEmpty)).length = 1 ∧
    ((fwHandshake final_seq fin_arrived).1.filter (fun p => p.payload.isEmpty)).length = 1 ∧
    ((renoHandshake final_seq fin_arrived).1.filter (fun p => p.payload.isEmpty)).length = 5 ∧
    (∀ p ∈ (swHandshake final_seq fin_arrived).1,
        p.payload = [] → p.seq_id = final_seq) ∧
    (∀ p ∈ (fwHandshake final_seq fin_arrived).1,
        p.payload = [] → p.seq_id = final_seq) ∧
    (∀ p ∈ (renoHandshake final_seq fin_arrived).1,
        p.payload = [] → p.seq_id = final_seq) ∧
    (swHandshake final_seq fin_arrived).2 = true ∧
    (fwHandshake final_seq fin_arrived).2 = true ∧
    (renoHandshake final_seq fin_arrived).2 = true := by
  refine ⟨?_, ?_, ?_, ?_, ?_, ?_, rfl, rfl, rfl⟩ <;>
    simp [swHandshake, fwHandshake, renoHandshake, finack_payload,
      List.filter_append, List.mem_replicate]

/-- Closed witness for the handshake-behavior theorem: the empty-payload
packets of each engine's handshake at final offset 2040 carry sequence
id 2040. -/
theorem handshake_behavior_witness :
    ({ seq_id := 2040, payload := [] } : Packet) ∈ (swHandshake 2040 true).1 ∧
      (({ seq_id := 2040, payload := [] } : Packet).payload = [] →
        ({ seq_id := 2040, payload := [] } : Packet).seq_id = 2040) :=
  ⟨by decide,
   (handshake_behavior 2040 true).2.2.2.1 { seq_id := 2040, payload := [] } (by decide)⟩

/-- **C10.** In every engine the terminal FINACK packet is
`create_packet(0, b'==FINACK==')`: its sequence id is 0 whatever the final
byte offset of the transfer was, so on the wire it is recognizable only by
its payload literal, never by its sequence id (which decodes to 0, not to
the final offset). -/
theorem finack_seq_id_zero (final_offset : ℤ) (fin_arrived : Bool) :
    (swHandshake final_offset fin_arrived).1.getLast?
        = some { seq_id := 0, payload := finack_payload } ∧
      (fwHandshake final_offset fin_arrived).1.getLast?
        = some { seq_id := 0, payload := finack_payload } ∧
      (renoHandshake final_offset fin_arrived).1.getLast?
        = some { seq_id := 0, payload := finack_payload } ∧
      parse_ack (create_packet 0 finack_payload) = 0 := by
  refine ⟨rfl, rfl, ?_, by decide⟩
  simp [renoHandshake]
